import Mathlib

/-!
Verification of the Koinos Node App against its specification.

The repository is a Tauri desktop application: a TypeScript/React frontend
(present under src/) driving a Rust backend (src-tauri, not present in this
tree; only its Tauri-command callers and the README interface tables are).
Frontend definitions below are translated directly from the TypeScript
source; backend components (Lifecycle Controller, Synchronization Monitor,
Snapshot Acquirer, Event/Log Hub) are modelled from the specification, as
marked on each definition.

Frontend status values travel as plain strings over the Tauri IPC bridge
(App.tsx casts the payload string), so the frontend status type is embedded
as String together with the list of values of the TypeScript union type.
-/

/-- The values of the TypeScript union type NodeStatus declared in
StatusIndicator.tsx: type NodeStatus = one of the five strings below.
There is no "stopping" value in the frontend type. -/
def nodeStatusValues : List String :=
  ["stopped", "starting", "syncing", "running", "error"]

/-- The status values listed by the README's Event Types section
(interface NodeStatus): five values, with "stopping" but without
"syncing". -/
def readmeNodeStatusValues : List String :=
  ["stopped", "starting", "running", "stopping", "error"]

/-- The per-status display configuration computed by getStatusConfig in
StatusIndicator.tsx (label and description strings of each switch case;
the icon/colour fields are summarised by the colour class string). -/
structure StatusConfig where
  color : String
  label : String
  description : String
deriving DecidableEq, Repr

/-- getStatusConfig from StatusIndicator.tsx: a switch on the status with
cases for exactly the five frontend values and no default branch, so any
other status yields undefined (none). -/
def getStatusConfig (status : String) : Option StatusConfig :=
  if status = "stopped" then
    some ⟨"text-koinos-dark-500", "Node Stopped", "Click Start to begin"⟩
  else if status = "starting" then
    some ⟨"text-yellow-500", "Starting Node", "Initializing services..."⟩
  else if status = "syncing" then
    some ⟨"text-blue-500", "Syncing Blockchain", "% complete"⟩
  else if status = "running" then
    some ⟨"text-green-500", "Node Running", "Fully synchronized"⟩
  else if status = "error" then
    some ⟨"text-red-500", "Error", "Check logs for details"⟩
  else
    none

/-- canStart from NodeControls.tsx line 39. -/
def canStart (status : String) : Bool :=
  status == "stopped" || status == "error"

/-- canStop from NodeControls.tsx line 40. -/
def canStop (status : String) : Bool :=
  status == "running" || status == "syncing" || status == "starting"

/-- canRestart from NodeControls.tsx line 41. -/
def canRestart (status : String) : Bool :=
  status == "running" || status == "syncing"

/-- The BackendNodeStatus payload interface of App.tsx (numbers carried by
JavaScript are embedded as rationals for sync_progress and naturals for
block heights and peer counts; an absent optional error_message is none). -/
structure BackendNodeStatus where
  status : String
  sync_progress : ℚ
  current_block : ℕ
  target_block : ℕ
  peers_count : ℕ
  error_message : Option String
deriving DecidableEq, Repr

/-- The slice of App.tsx React state touched by the node_status_update
listener: nodeStatus, syncProgress, currentBlock, targetBlock, peersCount
and the error banner state. -/
structure AppState where
  nodeStatus : String
  syncProgress : ℚ
  currentBlock : ℕ
  targetBlock : ℕ
  peersCount : ℕ
  error : Option String
deriving DecidableEq, Repr

/-- The node_status_update listener of App.tsx lines 74-85: every numeric
and status field is replaced from the payload; setError is called only
inside the truthiness guard if (status.error_message), so a payload whose
error_message is absent (or the empty string, which is falsy in
TypeScript) leaves the error state untouched. -/
def nodeStatusUpdateListener (st : AppState) (p : BackendNodeStatus) : AppState :=
  { nodeStatus := p.status
    syncProgress := p.sync_progress
    currentBlock := p.current_block
    targetBlock := p.target_block
    peersCount := p.peers_count
    error :=
      match p.error_message with
      | some m => if m = "" then st.error else some m
      | none => st.error }

/-- Claim C4 counterexample: the frontend NodeStatus union type of
StatusIndicator.tsx does not contain "stopping", and getStatusConfig - the
status-consuming switch of the StatusIndicator component - has no case for
it; moreover the README's own status enumeration disagrees with the code
(it lacks "syncing"). So the status type is not the claimed six-state
enumeration and Stopping is not representable in the frontend. -/
theorem frontend_status_stopping_missing :
    "stopping" ∉ nodeStatusValues ∧
    getStatusConfig "stopping" = none ∧
    "syncing" ∉ readmeNodeStatusValues := by
  refine ⟨by decide, by rfl, by decide⟩

/-- Claim C4 (amended): the frontend status type enumerates exactly the
five states stopped, starting, syncing, running, error - there is no
Stopping state - and the StatusIndicator component handles exactly these
five values: getStatusConfig returns a configuration precisely on the
values of the type. -/
theorem frontend_status_five_states (s : String) :
    ((getStatusConfig s).isSome ↔ s ∈ nodeStatusValues) ∧
    "stopping" ∉ nodeStatusValues := by
  constructor
  · unfold getStatusConfig nodeStatusValues
    split
    · simp_all
    · split
      · simp_all
      · split
        · simp_all
        · split
          · simp_all
          · split
            · simp_all
            · simp_all
  · decide

/-- Claim C10: the frontend control gating of NodeControls.tsx is exactly:
Start enabled iff status is stopped or error; Stop enabled iff status is
running, syncing or starting; Restart enabled iff status is running or
syncing; in particular Restart is never offered while stopped, starting or
in error. -/
theorem node_controls_gating (s : String) :
    (canStart s = true ↔ (s = "stopped" ∨ s = "error")) ∧
    (canStop s = true ↔ (s = "running" ∨ s = "syncing" ∨ s = "starting")) ∧
    (canRestart s = true ↔ (s = "running" ∨ s = "syncing")) ∧
    canRestart "stopped" = false ∧
    canRestart "starting" = false ∧
    canRestart "error" = false := by
  refine ⟨?_, ?_, ?_, rfl, rfl, rfl⟩ <;>
    simp [canStart, canStop, canRestart, Bool.or_eq_true, or_assoc]

/-- Claim C9: the node_status_update listener replaces status,
sync_progress, current_block, target_block and peers_count wholesale from
the payload, while the error banner is only ever set (when the payload
carries a non-empty error_message) and never cleared: a payload without an
error_message leaves the previous error state unchanged, so an error
banner persists across error-free updates. -/
theorem node_status_update_frame (st : AppState) (p : BackendNodeStatus) :
    (nodeStatusUpdateListener st p).nodeStatus = p.status ∧
    (nodeStatusUpdateListener st p).syncProgress = p.sync_progress ∧
    (nodeStatusUpdateListener st p).currentBlock = p.current_block ∧
    (nodeStatusUpdateListener st p).targetBlock = p.target_block ∧
    (nodeStatusUpdateListener st p).peersCount = p.peers_count ∧
    (p.error_message = none → (nodeStatusUpdateListener st p).error = st.error) ∧
    (∀ m, p.error_message = some m → m ≠ "" →
      (nodeStatusUpdateListener st p).error = some m) ∧
    ((nodeStatusUpdateListener st p).error = none → st.error = none) := by
  refine ⟨rfl, rfl, rfl, rfl, rfl, ?_, ?_, ?_⟩
  · intro h
    simp [nodeStatusUpdateListener, h]
  · intro m hm hne
    simp [nodeStatusUpdateListener, hm, hne]
  · intro h
    unfold nodeStatusUpdateListener at h
    dsimp at h
    rcases hm : p.error_message with _ | m
    · simpa [hm] using h
    · rw [hm] at h
      by_cases he : m = ""
      · simpa [he] using h
      · simp [he] at h

/-- Claim C9 witness: an error banner set before an error-free update is
still present afterwards, while the numeric fields are replaced. -/
theorem node_status_update_frame_witness :
    (nodeStatusUpdateListener
        ⟨"running", 50, 10, 20, 3, some "boom"⟩
        ⟨"syncing", 60, 12, 20, 4, none⟩).error = some "boom" ∧
    (nodeStatusUpdateListener
        ⟨"running", 50, 10, 20, 3, some "boom"⟩
        ⟨"syncing", 60, 12, 20, 4, none⟩).peersCount = 4 := by
  have h := node_status_update_frame
    ⟨"running", 50, 10, 20, 3, some "boom"⟩
    ⟨"syncing", 60, 12, 20, 4, none⟩
  exact ⟨by rw [h.2.2.2.2.2.1 rfl], h.2.2.2.2.1⟩

/-- Modelled from the spec: the six-state status set of the Lifecycle
Controller state machine of section 4.1 (the Rust backend node_manager is
not in this tree). -/
inductive LStatus where
  | Stopped
  | Starting
  | Syncing
  | Running
  | Stopping
  | Error
deriving DecidableEq, Repr, Fintype

/-- Modelled from the spec: the lifecycle and monitor events that drive the
Lifecycle Controller state machine (start and stop commands, engine
outcomes, monitor progress completion, engine teardown, and an
engine or poll failure beyond the consecutive-failure threshold). -/
inductive LEvent where
  | startCmd
  | stopCmd
  | engineUpNotCaught
  | engineUpCaught
  | engineFail
  | progressComplete
  | engineDown
  | failBeyondThreshold
deriving DecidableEq, Repr, Fintype

/-- Modelled from the spec: the transition function of the Lifecycle
Controller state machine of section 4.1. Events not listed for a state
leave the status unchanged (start while already Starting, Syncing or
Running is the idempotent no-op of section 4.1). -/
def stepStatus : LStatus → LEvent → LStatus
  | .Stopped, .startCmd => .Starting
  | .Error, .startCmd => .Starting
  | .Starting, .engineUpNotCaught => .Syncing
  | .Starting, .engineUpCaught => .Running
  | .Starting, .engineFail => .Error
  | .Syncing, .progressComplete => .Running
  | .Starting, .stopCmd => .Stopping
  | .Syncing, .stopCmd => .Stopping
  | .Running, .stopCmd => .Stopping
  | .Stopping, .engineDown => .Stopped
  | _, .failBeyondThreshold => .Error
  | s, _ => s

/-- Modelled from the spec: the edge set of section 4.1 - an observed
transition from a to b is allowed precisely when the pair is one of the
listed edges (any state may transition to Error on failure beyond the
threshold). -/
def allowedEdge : LStatus → LStatus → Bool
  | .Stopped, .Starting => true
  | .Error, .Starting => true
  | .Starting, .Syncing => true
  | .Starting, .Running => true
  | .Syncing, .Running => true
  | .Starting, .Stopping => true
  | .Syncing, .Stopping => true
  | .Running, .Stopping => true
  | .Stopping, .Stopped => true
  | _, .Error => true
  | _, _ => false

/-- The sequence of statuses observed while running the state machine from
a given status through a list of events. -/
def statusTrace : LStatus → List LEvent → List LStatus
  | s, [] => [s]
  | s, e :: es => s :: statusTrace (stepStatus s e) es

theorem statusTrace_head (s : LStatus) (es : List LEvent) :
    (statusTrace s es).head? = some s := by
  cases es <;> rfl

theorem stepStatus_sound (s : LStatus) (e : LEvent) :
    (stepStatus s e = s ∨ allowedEdge s (stepStatus s e) = true) ∧
    ¬(s = LStatus.Stopped ∧ stepStatus s e = LStatus.Running) := by
  revert s e
  decide

/-- Claim C1: for every sequence of lifecycle and monitor operations, the
observed node status only transitions along the edges of the section 4.1
state machine (each adjacent pair of the observed trace is either a stutter
or an allowed edge), and in particular a direct Stopped-to-Running
transition is never observed, from any starting status. -/
theorem lifecycle_trace_follows_edges (s : LStatus) (es : List LEvent) :
    List.Chain'
      (fun a b => (a = b ∨ allowedEdge a b = true) ∧
        ¬(a = LStatus.Stopped ∧ b = LStatus.Running))
      (statusTrace s es) := by
  induction es generalizing s with
  | nil => simp [statusTrace]
  | cons e es ih =>
    show List.Chain' _ (s :: statusTrace (stepStatus s e) es)
    rw [List.chain'_cons']
    refine ⟨?_, ih (stepStatus s e)⟩
    intro b hb
    rw [statusTrace_head] at hb
    cases hb
    have h := stepStatus_sound s e
    exact ⟨h.1.imp_left Eq.symm, h.2⟩

/-- Modelled from the spec: the error taxonomy of section 7. -/
inductive NodeError where
  | NotInitialized
  | EngineFailure
  | NetworkTransient
  | Timeout
  | Corrupt
  | Retryable
deriving DecidableEq, Repr

/-- Modelled from the spec: the Lifecycle Controller's mutable state - the
current status, the PersistentState initialized flag it gates start on,
and a counter of external engine invocations (used to state the
exactly-one-invocation property). -/
structure Controller where
  status : LStatus
  initialized : Bool
  engineInvocations : ℕ
deriving DecidableEq, Repr

/-- Modelled from the spec: start() of the Lifecycle Controller
(section 4.1). It fails with NotInitialized unless
PersistentState.initialized is true, leaving the state untouched; a call
while already Starting, Syncing, Running or Stopping is a no-op returning
the current status without invoking the external engine; from Stopped or
Error it transitions to Starting and invokes the engine once. Returns the
resulting status (or the error) together with the new controller state. -/
def startCtl (c : Controller) : Except NodeError LStatus × Controller :=
  if c.initialized = false then
    (Except.error NodeError.NotInitialized, c)
  else
    match c.status with
    | .Stopped =>
        (Except.ok LStatus.Starting,
         { c with status := .Starting, engineInvocations := c.engineInvocations + 1 })
    | .Error =>
        (Except.ok LStatus.Starting,
         { c with status := .Starting, engineInvocations := c.engineInvocations + 1 })
    | s => (Except.ok s, c)

/-- The controller state after n successive start() calls with no
intervening engine or monitor event. -/
def iterStart (c : Controller) : ℕ → Controller
  | 0 => c
  | n + 1 => iterStart (startCtl c).2 n

theorem iterStart_starting_fixed (n : ℕ) (c : Controller)
    (hi : c.initialized = true) (hs : c.status = LStatus.Starting) :
    iterStart c n = c := by
  induction n with
  | zero => rfl
  | succ n ih =>
    show iterStart (startCtl c).2 n = c
    have hfix : (startCtl c).2 = c := by
      simp [startCtl, hi, hs]
    rw [hfix, ih]

/-- Claim C3: start() is idempotent while the status is Starting or
Running - such a call is a no-op returning the current status and leaving
the state (engine invocation count included) unchanged - and for every
sequence of n consecutive start() calls beginning from Stopped on an
initialized controller, exactly one external engine invocation occurs
regardless of n. -/
theorem start_idempotent_single_invocation (c : Controller) (n : ℕ) :
    (c.initialized = true →
      (c.status = LStatus.Starting ∨ c.status = LStatus.Running) →
      startCtl c = (Except.ok c.status, c)) ∧
    (c.initialized = true → c.status = LStatus.Stopped → 1 ≤ n →
      (iterStart c n).engineInvocations = c.engineInvocations + 1 ∧
      (iterStart c n).status = LStatus.Starting) := by
  constructor
  · intro hi hs
    rcases hs with hs | hs <;> simp [startCtl, hi, hs]
  · intro hi hs hn
    obtain ⟨m, rfl⟩ : ∃ m, n = m + 1 := ⟨n - 1, by omega⟩
    have hstep : (startCtl c).2 =
        { c with status := .Starting, engineInvocations := c.engineInvocations + 1 } := by
      simp [startCtl, hi, hs]
    show (iterStart (startCtl c).2 m).engineInvocations = _ ∧
      (iterStart (startCtl c).2 m).status = _
    rw [hstep]
    rw [iterStart_starting_fixed m
      { c with status := .Starting, engineInvocations := c.engineInvocations + 1 } hi rfl]
    exact ⟨rfl, rfl⟩

/-- Claim C3 witness: a start() call while Running is a no-op, and three
start() calls from Stopped invoke the engine exactly once. -/
theorem start_idempotent_single_invocation_witness :
    startCtl ⟨LStatus.Running, true, 7⟩ =
      (Except.ok LStatus.Running, ⟨LStatus.Running, true, 7⟩) ∧
    (iterStart ⟨LStatus.Stopped, true, 0⟩ 3).engineInvocations = 1 := by
  refine ⟨(start_idempotent_single_invocation ⟨LStatus.Running, true, 7⟩ 3).1
      rfl (Or.inr rfl), ?_⟩
  have h := (start_idempotent_single_invocation ⟨LStatus.Stopped, true, 0⟩ 3).2
    rfl rfl (by decide)
  exact h.1

/-- Claim C7: when PersistentState.initialized is false, start() fails
with NotInitialized and the controller state is entirely unchanged: the
status stays Stopped and no external engine invocation occurs. -/
theorem start_not_initialized (c : Controller)
    (hi : c.initialized = false) (hs : c.status = LStatus.Stopped) :
    (startCtl c).1 = Except.error NodeError.NotInitialized ∧
    (startCtl c).2 = c ∧
    (startCtl c).2.status = LStatus.Stopped ∧
    (startCtl c).2.engineInvocations = c.engineInvocations := by
  refine ⟨by simp [startCtl, hi], by simp [startCtl, hi], ?_, ?_⟩ <;>
    simp [startCtl, hi, hs]

/-- Claim C7 witness: start() on an uninitialized stopped controller fails
with NotInitialized and leaves the state unchanged. -/
theorem start_not_initialized_witness :
    (startCtl ⟨LStatus.Stopped, false, 0⟩).1 =
      Except.error NodeError.NotInitialized ∧
    (startCtl ⟨LStatus.Stopped, false, 0⟩).2 = ⟨LStatus.Stopped, false, 0⟩ := by
  have h := start_not_initialized ⟨LStatus.Stopped, false, 0⟩ rfl rfl
  exact ⟨h.1, h.2.1⟩

/-- Clamp a rational into the interval from lo to hi. -/
def clampQ (lo hi x : ℚ) : ℚ := max lo (min hi x)

/-- Modelled from the spec: the sync progress computed on each
Synchronization Monitor tick (section 4.2, in the absent Rust backend):
clamp(current_block / target_block * 100, 0, 100), with a target at or
below the current block - including a momentarily stale target - clamped
to 100 rather than regressing. -/
def syncProgress (current target : ℕ) : ℚ :=
  if target ≤ current then 100
  else clampQ 0 100 ((current : ℚ) / (target : ℚ) * 100)

/-- Modelled from the spec: the NodeStatus record of section 3 as stored
by the backend and recomputed on every monitor tick. -/
structure NodeStatusRec where
  status : LStatus
  sync_progress : ℚ
  current_block : ℕ
  target_block : ℕ
  peers_count : ℕ
  error_message : Option String
deriving DecidableEq, Repr

/-- Modelled from the spec: one Synchronization Monitor tick (section 4.2)
applied to the stored NodeStatus for a reported pair of head and target
blocks and a peer count: the sync progress is recomputed by the clamp
formula and the stored target block is clamped up to the current block so
that current_block is at most target_block afterwards (section 3). -/
def monitorTick (st : NodeStatusRec) (current target peers : ℕ) : NodeStatusRec :=
  { st with
    sync_progress := syncProgress current target
    current_block := current
    target_block := max target current
    peers_count := peers }

theorem syncProgress_nonneg (current target : ℕ) :
    0 ≤ syncProgress current target := by
  unfold syncProgress clampQ
  split
  · norm_num
  · exact le_max_left 0 _

theorem syncProgress_le_hundred (current target : ℕ) :
    syncProgress current target ≤ 100 := by
  unfold syncProgress clampQ
  split
  · norm_num
  · exact max_le (by norm_num) (min_le_left 100 _)

theorem syncProgress_eq_clamp (current target : ℕ) (ht : 0 < target) :
    syncProgress current target =
      clampQ 0 100 ((current : ℚ) / (target : ℚ) * 100) := by
  unfold syncProgress
  split
  · rename_i hle
    have htq : (0 : ℚ) < (target : ℚ) := by exact_mod_cast ht
    have hcq : (target : ℚ) ≤ (current : ℚ) := by exact_mod_cast hle
    have hone : (1 : ℚ) ≤ (current : ℚ) / (target : ℚ) :=
      (one_le_div htq).mpr hcq
    have h100 : (100 : ℚ) ≤ (current : ℚ) / (target : ℚ) * 100 := by
      nlinarith
    unfold clampQ
    rw [min_eq_left h100, max_eq_right (by norm_num : (0 : ℚ) ≤ 100)]
  · rfl

/-- Claim C2: on every monitor tick, for any reported pair of blocks -
including a stale target below the current block - the computed sync
progress lies in the interval from 0 to 100, equals
clamp(current/target*100, 0, 100) whenever the target is positive, is
exactly 100 when the target is below the current block (no regression),
and the stored current_block is at most the stored target_block after
clamping. -/
theorem monitor_tick_progress_clamped (st : NodeStatusRec)
    (current target peers : ℕ) :
    0 ≤ (monitorTick st current target peers).sync_progress ∧
    (monitorTick st current target peers).sync_progress ≤ 100 ∧
    (monitorTick st current target peers).current_block ≤
      (monitorTick st current target peers).target_block ∧
    (target < current →
      (monitorTick st current target peers).sync_progress = 100) ∧
    (0 < target →
      (monitorTick st current target peers).sync_progress =
        clampQ 0 100 ((current : ℚ) / (target : ℚ) * 100)) := by
  refine ⟨syncProgress_nonneg current target,
    syncProgress_le_hundred current target,
    le_max_right target current, ?_, ?_⟩
  · intro h
    show syncProgress current target = 100
    unfold syncProgress
    rw [if_pos (Nat.le_of_lt h)]
  · intro ht
    exact syncProgress_eq_clamp current target ht

/-- Claim C2 witness: a tick reporting current 500 of target 1000 yields
progress 50; a tick with a stale target 1000 below current 1500 yields
progress 100 rather than a regression, and the stored blocks satisfy
current at most target. -/
theorem monitor_tick_progress_clamped_witness :
    (monitorTick ⟨LStatus.Syncing, 0, 0, 0, 0, none⟩ 500 1000 3).sync_progress = 50 ∧
    (monitorTick ⟨LStatus.Running, 99, 0, 0, 0, none⟩ 1500 1000 3).sync_progress = 100 ∧
    (monitorTick ⟨LStatus.Running, 99, 0, 0, 0, none⟩ 1500 1000 3).current_block ≤
      (monitorTick ⟨LStatus.Running, 99, 0, 0, 0, none⟩ 1500 1000 3).target_block := by
  have h1 := monitor_tick_progress_clamped ⟨LStatus.Syncing, 0, 0, 0, 0, none⟩ 500 1000 3
  have h2 := monitor_tick_progress_clamped ⟨LStatus.Running, 99, 0, 0, 0, none⟩ 1500 1000 3
  refine ⟨?_, h2.2.2.2.1 (by norm_num), h2.2.2.1⟩
  rw [h1.2.2.2.2 (by norm_num)]
  unfold clampQ
  norm_num

/-- Modelled from the spec: the DownloadState record of section 3 (in the
absent Rust backend), with the marker distinguishing a resumable download
in progress from a verified complete one. -/
structure DownloadState where
  url : String
  destinationPath : String
  totalBytes : ℕ
  bytesDownloaded : ℕ
  verified : Bool
deriving DecidableEq, Repr

/-- The request plan chosen by acquire(): the byte offset the range
request starts at, and whether a stale on-disk file is discarded first. -/
structure AcquirePlan where
  startOffset : ℕ
  discardStale : Bool
deriving DecidableEq, Repr

/-- Modelled from the spec: the resume decision of acquire(url) in the
Snapshot Acquirer (section 4.3, in the absent Rust backend). Given the
persisted DownloadState for this destination, if any, and the size of the
on-disk file from an earlier attempt, if one exists: when the state is for
the same url and the file size matches its bytes_downloaded, a byte-range
request resumes from that offset; otherwise the download starts fresh at
offset zero, discarding whatever stale file exists. -/
def acquirePlan (url : String) (existing : Option DownloadState)
    (onDiskSize : Option ℕ) : AcquirePlan :=
  match existing, onDiskSize with
  | some st, some sz =>
      if st.url = url ∧ sz = st.bytesDownloaded then
        { startOffset := st.bytesDownloaded, discardStale := false }
      else
        { startOffset := 0, discardStale := true }
  | some _, none => { startOffset := 0, discardStale := false }
  | none, some _ => { startOffset := 0, discardStale := true }
  | none, none => { startOffset := 0, discardStale := false }

/-- A byte index is fetched by a plan for a download of the given total
size when it lies in the requested range from the start offset to the
end. -/
def fetchesByte (p : AcquirePlan) (total b : ℕ) : Prop :=
  p.startOffset ≤ b ∧ b < total

instance (p : AcquirePlan) (total b : ℕ) : Decidable (fetchesByte p total b) :=
  inferInstanceAs (Decidable (_ ∧ _))

/-- Claim C5: re-invoking acquire() with a persisted DownloadState for the
same url whose on-disk file size matches bytes_downloaded = N issues a
byte-range request starting at offset N and never re-fetches any byte
below N; with a mismatching file (wrong size or wrong url) it starts
fresh at offset zero and discards the stale file. -/
theorem acquire_resumes_from_offset (url : String) (st : DownloadState)
    (sz total : ℕ) :
    (st.url = url → sz = st.bytesDownloaded →
      acquirePlan url (some st) (some sz) =
        { startOffset := st.bytesDownloaded, discardStale := false } ∧
      ∀ b, b < st.bytesDownloaded →
        ¬ fetchesByte (acquirePlan url (some st) (some sz)) total b) ∧
    (¬ (st.url = url ∧ sz = st.bytesDownloaded) →
      acquirePlan url (some st) (some sz) =
        { startOffset := 0, discardStale := true }) := by
  constructor
  · intro hu hs
    have hplan : acquirePlan url (some st) (some sz) =
        { startOffset := st.bytesDownloaded, discardStale := false } := by
      show (if st.url = url ∧ sz = st.bytesDownloaded then
          ({ startOffset := st.bytesDownloaded, discardStale := false } : AcquirePlan)
        else { startOffset := 0, discardStale := true }) = _
      rw [if_pos ⟨hu, hs⟩]
    refine ⟨hplan, ?_⟩
    intro b hb hfetch
    rw [hplan] at hfetch
    exact absurd hfetch.1 (Nat.not_le.mpr hb)
  · intro hmis
    show (if st.url = url ∧ sz = st.bytesDownloaded then
        ({ startOffset := st.bytesDownloaded, discardStale := false } : AcquirePlan)
      else { startOffset := 0, discardStale := true }) = _
    rw [if_neg hmis]

/-- Claim C5 witness: a 1000-byte download interrupted at byte 400 with a
matching 400-byte file on disk resumes with a range request at offset 400,
fetching byte 400 but not byte 399; a mismatching 350-byte file triggers a
fresh start discarding the stale file. -/
theorem acquire_resumes_from_offset_witness :
    acquirePlan "u" (some ⟨"u", "d", 1000, 400, false⟩) (some 400) =
      { startOffset := 400, discardStale := false } ∧
    ¬ fetchesByte (acquirePlan "u" (some ⟨"u", "d", 1000, 400, false⟩) (some 400)) 1000 399 ∧
    fetchesByte (acquirePlan "u" (some ⟨"u", "d", 1000, 400, false⟩) (some 400)) 1000 400 ∧
    acquirePlan "u" (some ⟨"u", "d", 1000, 400, false⟩) (some 350) =
      { startOffset := 0, discardStale := true } := by
  have h := acquire_resumes_from_offset "u" ⟨"u", "d", 1000, 400, false⟩ 400 1000
  have h2 := acquire_resumes_from_offset "u" ⟨"u", "d", 1000, 400, false⟩ 350 1000
  refine ⟨(h.1 rfl rfl).1, (h.1 rfl rfl).2 399 (by norm_num), ?_, ?_⟩
  · rw [(h.1 rfl rfl).1]
    exact ⟨le_refl 400, by norm_num⟩
  · exact h2.2 (by simp)

/-- The outcome of finishing a download stream: the verification result
(the promoted verified-complete DownloadState, or a failure) and whether
the on-disk file was discarded. -/
structure FinishResult where
  result : Except NodeError DownloadState
  fileDiscarded : Bool
deriving Repr

/-- Modelled from the spec: the verification step of acquire() after the
stream completes (section 4.3, in the absent Rust backend): the final
size must equal total_bytes and a provided checksum must match before the
DownloadState is promoted to verified complete; any mismatch discards the
on-disk file and fails with Corrupt. -/
def finishDownload (st : DownloadState) (finalSize : ℕ)
    (checksumOk : Bool) : FinishResult :=
  if finalSize = st.totalBytes ∧ checksumOk = true then
    { result := Except.ok { st with bytesDownloaded := finalSize, verified := true }
      fileDiscarded := false }
  else
    { result := Except.error NodeError.Corrupt, fileDiscarded := true }

/-- Claim C6: after a download stream completes, the file is verified
before promotion: a final size differing from total_bytes, or a checksum
mismatch, makes acquire() fail with Corrupt and discard the on-disk file;
and a DownloadState is only ever promoted to the verified-complete marker
when the final size equals total_bytes and the checksum matches. -/
theorem finish_download_verifies (st : DownloadState) (finalSize : ℕ)
    (checksumOk : Bool) :
    (finalSize ≠ st.totalBytes →
      finishDownload st finalSize checksumOk =
        { result := Except.error NodeError.Corrupt, fileDiscarded := true }) ∧
    (checksumOk = false →
      finishDownload st finalSize checksumOk =
        { result := Except.error NodeError.Corrupt, fileDiscarded := true }) ∧
    (∀ st2, (finishDownload st finalSize checksumOk).result = Except.ok st2 →
      finalSize = st.totalBytes ∧ checksumOk = true ∧ st2.verified = true) := by
  refine ⟨?_, ?_, ?_⟩
  · intro hne
    unfold finishDownload
    rw [if_neg (fun h => hne h.1)]
  · intro hck
    unfold finishDownload
    rw [if_neg (fun h => by rw [hck] at h; exact Bool.false_ne_true h.2)]
  · intro st2 hok
    unfold finishDownload at hok
    split at hok
    · rename_i hcond
      refine ⟨hcond.1, hcond.2, ?_⟩
      dsimp at hok
      cases hok
      rfl
    · exact absurd hok (by simp)

/-- Claim C6 witness: a download of 1000 expected bytes that ends with
only 400 bytes fails with Corrupt and discards the file; the matching
1000-byte completion is promoted to verified complete. -/
theorem finish_download_verifies_witness :
    finishDownload ⟨"u", "d", 1000, 400, false⟩ 400 true =
      { result := Except.error NodeError.Corrupt, fileDiscarded := true } ∧
    (finishDownload ⟨"u", "d", 1000, 1000, false⟩ 1000 true).result =
      Except.ok ⟨"u", "d", 1000, 1000, true⟩ := by
  have h := finish_download_verifies ⟨"u", "d", 1000, 400, false⟩ 400 true
  exact ⟨h.1 (by norm_num), rfl⟩

/-- The LogEntry record of the Event/Log Hub, as in the DebugConsole.tsx
interface and section 3 of the spec. -/
structure LogEntry where
  timestamp : String
  level : String
  message : String
  details : Option String
deriving DecidableEq, Repr

/-- The last n elements of a list, in order. -/
def lastN (n : ℕ) (l : List LogEntry) : List LogEntry :=
  l.drop (l.length - n)

/-- Modelled from the spec: the Event/Log Hub of section 4.6 (logger.rs of
the absent Rust backend): a fixed-capacity circular buffer of log entries,
oldest first. -/
structure EventHub where
  capacity : ℕ
  buffer : List LogEntry
deriving DecidableEq, Repr

/-- Modelled from the spec: append(entry) of the Event/Log Hub
(section 4.6): the entry is inserted at the newest end of the circular
buffer, evicting the oldest entry on overflow, so the buffer always holds
the last capacity entries in insertion order. -/
def appendHub (h : EventHub) (e : LogEntry) : EventHub :=
  { h with buffer := lastN h.capacity (h.buffer ++ [e]) }

/-- Modelled from the spec: get_all() of the Event/Log Hub (section 4.6)
returns a snapshot copy of the buffer, oldest to newest. -/
def getAll (h : EventHub) : List LogEntry := h.buffer

/-- The hub after appending a whole sequence of entries in order. -/
def appendAll (h : EventHub) (es : List LogEntry) : EventHub :=
  es.foldl appendHub h

/-- An Event/Log Hub with the given capacity and an empty buffer. -/
def mkHub (c : ℕ) : EventHub := { capacity := c, buffer := [] }

theorem lastN_append (n : ℕ) (l y : List LogEntry) :
    lastN n (lastN n l ++ y) = lastN n (l ++ y) := by
  unfold lastN
  rw [← List.drop_append_of_le_length (Nat.sub_le l.length n)]
  rw [List.drop_drop]
  congr 1
  simp [List.length_drop, List.length_append]
  omega

theorem lastN_length_le (n : ℕ) (l : List LogEntry) :
    (lastN n l).length ≤ n := by
  unfold lastN
  rw [List.length_drop]
  omega

theorem appendAll_buffer (es : List LogEntry) (h : EventHub)
    (hb : h.buffer.length ≤ h.capacity) :
    (appendAll h es).buffer = lastN h.capacity (h.buffer ++ es) ∧
    (appendAll h es).capacity = h.capacity := by
  induction es generalizing h with
  | nil =>
    refine ⟨?_, rfl⟩
    show h.buffer = lastN h.capacity (h.buffer ++ [])
    rw [List.append_nil]
    unfold lastN
    rw [Nat.sub_eq_zero_of_le hb, List.drop_zero]
  | cons e es ih =>
    have hcap : (appendHub h e).capacity = h.capacity := rfl
    have hlen : (appendHub h e).buffer.length ≤ (appendHub h e).capacity :=
      lastN_length_le h.capacity (h.buffer ++ [e])
    have hstep := ih (appendHub h e) hlen
    refine ⟨?_, hstep.2⟩
    show (appendAll (appendHub h e) es).buffer = _
    rw [hstep.1]
    show lastN h.capacity (lastN h.capacity (h.buffer ++ [e]) ++ es) = _
    rw [lastN_append]
    congr 1
    simp

/-- Claim C8: the Event Hub buffer never holds more than its capacity C
entries, and after any sequence of appends into an initially empty hub,
get_all() returns exactly the last C appended entries in FIFO
oldest-to-newest insertion order (so the (C+1)th append evicts the oldest
entry); in particular 101 appends at capacity 100 leave exactly the last
100 entries in order. -/
theorem event_hub_capacity_fifo (C : ℕ) (es : List LogEntry) :
    (appendAll (mkHub C) es).buffer.length ≤ C ∧
    getAll (appendAll (mkHub C) es) = es.drop (es.length - C) := by
  have h := appendAll_buffer es (mkHub C) (by simp [mkHub])
  have hbuf : (appendAll (mkHub C) es).buffer = lastN C es := by
    rw [h.1]
    show lastN C ([] ++ es) = lastN C es
    rw [List.nil_append]
  constructor
  · rw [hbuf]
    exact lastN_length_le C es
  · show (appendAll (mkHub C) es).buffer = _
    rw [hbuf]
    rfl
